import Mathlib

/-!
Shallow embedding of the core download engine of the StreamingCommunity
repository (segment fetchers, progress estimator, DRM extractors, stream
metadata parsing and the DASH downloader orchestrator), together with
theorems settling the specification claims about it.

Conventions of the embedding:
  - byte strings are modelled as List Nat (one Nat per byte);
  - Python floats used in timeout and backoff arithmetic are modelled as Rat;
  - fallible Python code is modelled with Except or Option; a Python function
    that raises propagates an error value;
  - while loops are modelled by structural recursion on an explicit fuel
    argument that bounds the number of iterations the real loop can make;
  - a threading.Lock is modelled by a LockState value; acquiring a held
    non-reentrant lock blocks forever, which is modelled as the computation
    returning none.
-- -/

/- ===================== Progress estimator (Lib/HLS/estimator.py) ========= -/

/-- Embedding of the body of M3U8_Ts_Estimator.add_ts_file: a size is appended
to the unbounded sample list unless it is non-positive. -/
def add_ts_file (ts_file_sizes : List Rat) (size : Rat) : List Rat :=
  if size ≤ 0 then ts_file_sizes else ts_file_sizes ++ [size]

/-- Embedding of the numeric computation of
M3U8_Ts_Estimator.calculate_total_size: mean of all recorded sizes times the
total number of segments (the human-readable formatting of the source is
dropped; this is the estimated_total_size value before formatting). -/
def calculate_total_size (ts_file_sizes : List Rat) (total_segments : Nat) : Rat :=
  if ts_file_sizes = [] then 0
  else (ts_file_sizes.sum / (ts_file_sizes.length : Rat)) * (total_segments : Rat)

/-- Formalisation of the wording of claim C8: average size over the sample of
observed per-segment sizes, multiplied by the number of remaining (not yet
downloaded) segments. -/
def spec_estimated_total_C8 (sample : List Rat) (remaining : Nat) : Rat :=
  if sample = [] then 0
  else (sample.sum / (sample.length : Rat)) * (remaining : Rat)

/- ===================== Lock model (threading.Lock) ======================= -/

/-- State of a non-reentrant mutex. -/
inductive LockState where
  | free : LockState
  | held : LockState
deriving DecidableEq, Repr

/-- Acquiring a non-reentrant lock: succeeds on a free lock, blocks forever
(modelled as none) on a lock that is already held by the same thread. -/
def lockAcquire : LockState → Option LockState
  | LockState.free => some LockState.held
  | LockState.held => none

/-- Releasing the lock at the end of a with-block. -/
def lockRelease : LockState → LockState := fun _ => LockState.free

/-- Mutable fields of M3U8_Ts_Estimator that its methods read. -/
structure EstimatorState where
  ts_file_sizes : List Rat
  total_segments : Nat
deriving Repr

/-- Embedding of M3U8_Ts_Estimator.get_average_segment_size: takes self.lock,
then returns the mean of the recorded sizes (0 for an empty sample). The
truncation to int of the source is dropped; only lock behaviour and the
shape of the value matter here. -/
def get_average_segment_size (lock : LockState) (e : EstimatorState) :
    Option (LockState × Rat) :=
  match lockAcquire lock with
  | none => none
  | some l =>
      some (lockRelease l,
        if e.ts_file_sizes = [] then 0
        else e.ts_file_sizes.sum / (e.ts_file_sizes.length : Rat))

/-- Embedding of M3U8_Ts_Estimator.calculate_total_size as executed at run
time: the numeric body of calculate_total_size guarded by self.lock. -/
def calculate_total_size_locked (lock : LockState) (e : EstimatorState) :
    Option (LockState × Rat) :=
  match lockAcquire lock with
  | none => none
  | some l =>
      some (lockRelease l, calculate_total_size e.ts_file_sizes e.total_segments)

/-- Embedding of M3U8_Ts_Estimator.get_stats: acquires self.lock and, while
holding it, calls get_average_segment_size (which acquires the same lock)
and calculate_total_size (likewise); returns the stats dictionary with the
keys the source produces. -/
def get_stats (lock : LockState) (e : EstimatorState) :
    Option (LockState × List (String × Rat)) :=
  match lockAcquire lock with
  | none => none
  | some l1 =>
      match get_average_segment_size l1 e with
      | none => none
      | some (l2, avg) =>
          match calculate_total_size_locked l2 e with
          | none => none
          | some (l3, est) =>
              some (lockRelease l3,
                [("total_segments", (e.total_segments : Rat)),
                 ("downloaded_count", (e.ts_file_sizes.length : Rat)),
                 ("average_segment_size", avg),
                 ("total_downloaded_bytes", e.ts_file_sizes.sum),
                 ("estimated_total_size", est)])

/-- Embedding of M3U8_Segments.get_progress_data: obtains the stats snapshot
from the estimator and then reads the download_speed, estimated_total_size
and eta_seconds entries of it (a missing dictionary key is a KeyError,
modelled as none). -/
def hls_get_progress_data (lock : LockState) (e : EstimatorState)
    (downloaded total nFailed : Nat) : Option (List (String × Rat)) :=
  let percentage : Rat :=
    if 0 < total then (downloaded : Rat) / (total : Rat) * 100 else 0
  match get_stats lock e with
  | none => none
  | some (_, stats) =>
      match stats.lookup "download_speed", stats.lookup "estimated_total_size",
            stats.lookup "eta_seconds" with
      | some sp, some est, some eta =>
          some [("total_segments", (total : Rat)),
                ("downloaded_segments", (downloaded : Rat)),
                ("failed_segments", (nFailed : Rat)),
                ("current_speed", sp),
                ("estimated_size", est),
                ("percentage", percentage),
                ("eta_seconds", eta)]
      | _, _, _ => none

/-- Embedding of MPD_Segments.get_progress_data: returns the Python value None
(modelled some none) when no estimator is set, and otherwise takes the same
snapshot through get_stats as the HLS variant. -/
def dash_get_progress_data (lock : LockState) (estOpt : Option EstimatorState)
    (failedCount total nFailed : Nat) : Option (Option (List (String × Rat))) :=
  match estOpt with
  | none => some none
  | some e =>
      let downloaded := total - failedCount
      let percentage : Rat :=
        if 0 < total then (downloaded : Rat) / (total : Rat) * 100 else 0
      match get_stats lock e with
      | none => none
      | some (_, stats) =>
          match stats.lookup "download_speed", stats.lookup "estimated_total_size",
                stats.lookup "eta_seconds" with
          | some sp, some est, some eta =>
              some (some
                [("total_segments", (total : Rat)),
                 ("downloaded_segments", (downloaded : Rat)),
                 ("failed_segments", (nFailed : Rat)),
                 ("current_speed", sp),
                 ("estimated_size", est),
                 ("percentage", percentage),
                 ("eta_seconds", eta)])
          | _, _, _ => none

/- ===================== DASH completion check (Lib/DASH/segments.py) ====== -/

/-- Observable outcome of MPD_Segments._verify_download_completion: the error
it raises, if any, and which console messages it prints. -/
structure VerifyOutcome where
  raised : Option String
  printedMissing : Bool
  printedRetryStats : Bool
deriving DecidableEq, Repr

/-- Embedding of MPD_Segments._verify_download_completion. Every control path
of the source returns normally; the function only prints when the
completion threshold is not met. -/
def verify_download_completion (total failedCount nFailed : Nat)
    (interrupted : Bool) : VerifyOutcome :=
  if interrupted then ⟨none, false, false⟩
  else if total = 0 then ⟨none, false, false⟩
  else
    if ((total : Rat) - (failedCount : Rat)) / (total : Rat) ≥ 9/10 ∨ failedCount ≤ 30 then
      ⟨none, false, false⟩
    else
      ⟨none, true, decide (0 < nFailed)⟩

/-- Result dictionary of M3U8_Segments._generate_results. -/
structure HlsResult where
  stream_type : String
  nFailed : Nat
  stopped : Bool
deriving DecidableEq, Repr

/-- Embedding of M3U8_Segments._generate_results: the HLS track result is
packaged unconditionally, with no completion-threshold check and no error
path at all, hence the Except never carries an error. -/
def hls_generate_results (stream_type : String) (nFailed : Nat) (stopped : Bool) :
    Except String HlsResult :=
  Except.ok ⟨stream_type, nFailed, stopped⟩

/- ===================== Theorems for C8, C9, C2 =========================== -/

/-- Claim C8 counterexample: with one observed segment of 100 bytes out of 10
total segments, the code estimates mean times the TOTAL segment count
(1000), while the claim says mean times the REMAINING segment count
(9 remaining, giving 900). -/
theorem claim_C8_counterexample :
    calculate_total_size [100] 10 = 1000 ∧
    spec_estimated_total_C8 [100] (10 - 1) = 900 ∧
    (1000 : Rat) ≠ 900 := by
  refine ⟨?_, ?_, by norm_num⟩ <;> norm_num [calculate_total_size, spec_estimated_total_C8]

/-- Claim C8 (amended): the reported estimated total size equals the average
over ALL per-segment sizes observed so far multiplied by the TOTAL number of
segments of the track, and the sample list grows without bound (every
positive size is appended, nothing is evicted). -/
theorem claim_C8_amended (sizes : List Rat) (total : Nat) :
    calculate_total_size sizes total = spec_estimated_total_C8 sizes total
    ∧ (∀ s : Rat, 0 < s → add_ts_file sizes s = sizes ++ [s]
        ∧ (add_ts_file sizes s).length = sizes.length + 1) := by
  refine ⟨rfl, fun s hs => ?_⟩
  have h : ¬ s ≤ 0 := not_le.mpr hs
  constructor
  · simp [add_ts_file, h]
  · simp [add_ts_file, h]

/-- Witness for claim C8 (amended) at a concrete sample. -/
theorem claim_C8_amended_witness :
    calculate_total_size [100] 10 = spec_estimated_total_C8 [100] 10
    ∧ add_ts_file [100] 7 = [100, 7] := by
  refine ⟨(claim_C8_amended [100] 10).1, ?_⟩
  have h := ((claim_C8_amended [100] 10).2 7 (by norm_num)).1
  simpa using h

/-- Claim C9: M3U8_Ts_Estimator.get_stats acquires the non-reentrant lock and
then calls get_average_segment_size, which tries to acquire the same lock,
so get_stats never returns, for every lock state and estimator state; in
consequence both get_progress_data methods never return a snapshot. -/
theorem claim_C9_get_stats_deadlock :
    (∀ lock e, get_stats lock e = none)
    ∧ (∀ lock e downloaded total nFailed,
        hls_get_progress_data lock e downloaded total nFailed = none)
    ∧ (∀ lock e failedCount total nFailed,
        dash_get_progress_data lock (some e) failedCount total nFailed = none) := by
  have hstats : ∀ lock e, get_stats lock e = none := by
    intro lock e
    cases lock <;>
      simp [get_stats, get_average_segment_size, lockAcquire]
  refine ⟨hstats, ?_, ?_⟩
  · intro lock e downloaded total nFailed
    simp [hls_get_progress_data, hstats]
  · intro lock e failedCount total nFailed
    simp [dash_get_progress_data, hstats]

/-- Claim C2 counterexample: with 100 segments of which 50 failed (and no
cancellation), neither success condition holds, yet the code raises no
TrackIncomplete error: the check only returns normally. -/
theorem claim_C2_counterexample :
    ¬ ( (((100 : Rat) - 50) / 100 ≥ 9/10 ∨ (50 : Nat) ≤ 30)
        ∨ (verify_download_completion 100 50 50 false).raised = some "TrackIncomplete" ) := by
  intro h
  rcases h with h | h
  · rcases h with h | h
    · norm_num at h
    · omega
  · have : (verify_download_completion 100 50 50 false).raised = none := by
      norm_num [verify_download_completion]
    rw [this] at h
    exact Option.noConfusion h

/-- Claim C2 (amended): after the DASH sliding-window loop has drained all N
segments without cancellation, _verify_download_completion evaluates the
success condition (N - failed)/N ≥ 0.90 or failed ≤ 30, but no error is
ever raised: when the condition fails it only prints the missing segment
indices, and the track result is still produced. The HLS fetcher performs
no completion check at all: _generate_results packages the result
unconditionally. -/
theorem claim_C2_amended (total failedCount nFailed : Nat) (hN : 0 < total) :
    (verify_download_completion total failedCount nFailed false).raised = none
    ∧ ((verify_download_completion total failedCount nFailed false).printedMissing = true
        ↔ ¬ (((total : Rat) - (failedCount : Rat)) / (total : Rat) ≥ 9/10 ∨ failedCount ≤ 30))
    ∧ (∀ t nF st, hls_generate_results t nF st = Except.ok ⟨t, nF, st⟩) := by
  have hne : total ≠ 0 := Nat.pos_iff_ne_zero.mp hN
  refine ⟨?_, ?_, fun t nF st => rfl⟩
  · by_cases h : ((total : Rat) - (failedCount : Rat)) / (total : Rat) ≥ 9/10 ∨ failedCount ≤ 30 <;>
      simp [verify_download_completion, hne, h]
  · by_cases h : ((total : Rat) - (failedCount : Rat)) / (total : Rat) ≥ 9/10 ∨ failedCount ≤ 30 <;>
      simp [verify_download_completion, hne, h]

/-- Witness for claim C2 (amended) at the concrete failing state. -/
theorem claim_C2_amended_witness :
    (verify_download_completion 100 50 50 false).raised = none
    ∧ ((verify_download_completion 100 50 50 false).printedMissing = true
        ↔ ¬ (((100 : Rat) - (50 : Rat)) / (100 : Rat) ≥ 9/10 ∨ (50 : Nat) ≤ 30)) := by
  exact ⟨(claim_C2_amended 100 50 50 (by norm_num)).1,
         (claim_C2_amended 100 50 50 (by norm_num)).2.1⟩

/- ============== Python call binding and the DASH orchestrator ============ -/

/-- Binding of a Python call site to a method signature (self excluded):
params are the declared parameter names, nPositional the number of
positional arguments at the call site, kwargs the keyword argument names.
Passing more positional arguments than declared parameters, or a keyword
that names no free parameter, raises TypeError. -/
def pyBindCall (params : List String) (nPositional : Nat) (kwargs : List String) :
    Except String Unit :=
  if params.length < nPositional then Except.error "TypeError"
  else if kwargs.any (fun k => ¬ (params.drop nPositional).contains k) then
    Except.error "TypeError"
  else Except.ok ()

/-- Declared parameters of MPDParser.get_adaptation_sets_info (self excluded):
the method takes no argument. -/
def get_adaptation_sets_info_params : List String := []

/-- Declared parameters of MPDParser.get_drm_info (self excluded). -/
def get_drm_info_params : List String := ["drm_preference"]

/-- Shape of the dictionary MPDParser.get_drm_info would return. -/
structure DrmInfo where
  available_drm_types : List String
  selected_drm_type : Option String
deriving DecidableEq, Repr

/-- Embedding of DASH_Downloader._fetch_drm_info: inside the try block, the
source calls parser.get_adaptation_sets_info(selected_ids) with one
positional argument and later parser.get_drm_info(self.drm_preference,
selected_ids=selected_ids) with an extra keyword; the first binding that
fails raises TypeError, the enclosing except swallows it and the method
returns False with self.drm_info still None. parserResult stands for the
value get_drm_info would produce if the calls bound. -/
def fetch_drm_info (selected_ids : List String) (parserResult : DrmInfo) :
    Bool × Option DrmInfo :=
  let body : Except String DrmInfo := do
    _ ← pyBindCall get_adaptation_sets_info_params 1 []
    _ ← pyBindCall get_drm_info_params 1 ["selected_ids"]
    pure parserResult
  match body with
  | Except.error _ => (false, none)
  | Except.ok info => (true, some info)

/-- Embedding of the guard in DASH_Downloader.start that decides whether DRM
key fetching is attempted: if self.drm_info and
self.drm_info[available_drm_types]. -/
def start_reaches_key_fetch (drm_info : Option DrmInfo) : Bool :=
  match drm_info with
  | none => false
  | some i =>
      match i.available_drm_types with
      | [] => false
      | _ :: _ => true

/-- Claim C10: DASH_Downloader._fetch_drm_info returns False for every input,
because the call to get_adaptation_sets_info passes a positional argument
the method does not declare (and the get_drm_info call passes an unknown
keyword), so a TypeError is raised and swallowed; drm_info stays None and
the start method never reaches DRM key fetching through parsed MPD info. -/
theorem claim_C10_fetch_drm_info_always_false :
    (∀ ids r, fetch_drm_info ids r = (false, none))
    ∧ (∀ ids r, start_reaches_key_fetch (fetch_drm_info ids r).2 = false) := by
  have h : ∀ ids r, fetch_drm_info ids r = (false, none) := by
    intro ids r
    simp [fetch_drm_info, pyBindCall, get_adaptation_sets_info_params, bind, Except.bind]
  exact ⟨h, fun ids r => by rw [h ids r]; rfl⟩

/- ============== Stream dataclass and meta.json parsing (N_m3u8) ========== -/

/-- Field names of the Stream dataclass in core/N_m3u8/models.py. -/
def stream_dataclass_fields : List String :=
  ["type", "resolution", "bitrate", "codec", "language", "lang_code",
   "language_long", "encrypted", "duration", "segments_count"]

/-- Keyword argument names of every Stream(...) construction in
StreamParser.parse_stream_info_from_json (identical in the Video, Audio and
Subtitle branches). -/
def stream_call_kwargs : List String :=
  ["type", "resolution", "bitrate", "codec", "language", "lang_code",
   "language_long", "variant", "encrypted", "duration", "segments_count"]

/-- Calling the generated init of a dataclass: a keyword argument that is not
a declared field raises TypeError. -/
def dataclass_init (fields kwargs : List String) : Except String Unit :=
  if kwargs.all (fun k => fields.contains k) then Except.ok ()
  else Except.error "TypeError"

/-- Fields of a meta.json entry that the classification logic reads. -/
structure MetaItem where
  mediaType : Option String
  hasResolution : Bool
deriving DecidableEq, Repr

/-- ASCII upper-casing of a Python string, written over the character list so
that it evaluates by kernel reduction. -/
def py_upper (s : String) : String := String.mk (s.data.map Char.toUpper)

/-- Embedding of media_type = item.get("MediaType", "VIDEO").upper(). -/
def item_media_type (it : MetaItem) : String := py_upper (it.mediaType.getD "VIDEO")

/-- Condition of the VIDEO branch of parse_stream_info_from_json. -/
def is_video_item (it : MetaItem) : Bool :=
  decide (item_media_type it = "VIDEO"
    ∨ (item_media_type it ∉ (["AUDIO", "SUBTITLES"] : List String) ∧ it.hasResolution = true))

/-- Embedding of the item loop of StreamParser.parse_stream_info_from_json:
each Video, Audio or Subtitle classified entry constructs Stream with the
keyword set stream_call_kwargs; an unclassified entry is skipped. Returns
the number of streams built, or propagates the TypeError of a failed
construction. -/
def parse_stream_items : List MetaItem → Except String Nat
  | [] => Except.ok 0
  | it :: rest =>
    if is_video_item it then
      match dataclass_init stream_dataclass_fields stream_call_kwargs with
      | Except.error e => Except.error e
      | Except.ok _ =>
          match parse_stream_items rest with
          | Except.error e => Except.error e
          | Except.ok n => Except.ok (n + 1)
    else if item_media_type it = "AUDIO" then
      match dataclass_init stream_dataclass_fields stream_call_kwargs with
      | Except.error e => Except.error e
      | Except.ok _ =>
          match parse_stream_items rest with
          | Except.error e => Except.error e
          | Except.ok n => Except.ok (n + 1)
    else if item_media_type it = "SUBTITLES" then
      match dataclass_init stream_dataclass_fields stream_call_kwargs with
      | Except.error e => Except.error e
      | Except.ok _ =>
          match parse_stream_items rest with
          | Except.error e => Except.error e
          | Except.ok n => Except.ok (n + 1)
    else parse_stream_items rest

/-- Claim C7: whenever the meta.json array holds at least one entry classified
as Video, Audio or Subtitle, the parse raises TypeError, because every
branch passes the keyword variant, which the Stream dataclass does not
declare (nor does it declare original_language, which the downloader later
reads). -/
theorem claim_C7_parse_raises_typeerror (items : List MetaItem)
    (h : ∃ it ∈ items, is_video_item it = true ∨ item_media_type it = "AUDIO"
          ∨ item_media_type it = "SUBTITLES") :
    parse_stream_items items = Except.error "TypeError"
    ∧ "variant" ∉ stream_dataclass_fields
    ∧ "original_language" ∉ stream_dataclass_fields := by
  have hinit : dataclass_init stream_dataclass_fields stream_call_kwargs
      = Except.error "TypeError" := rfl
  refine ⟨?_, by decide, by decide⟩
  induction items with
  | nil => simp at h
  | cons it rest ih =>
      rcases h with ⟨x, hx, hcls⟩
      rcases List.mem_cons.mp hx with rfl | hx
      · rcases hcls with hv | ha | hs
        · simp [parse_stream_items, hv, hinit]
        · by_cases hv : is_video_item x <;> simp [parse_stream_items, hv, ha, hinit]
        · by_cases hv : is_video_item x
          · simp [parse_stream_items, hv, hinit]
          · by_cases ha : item_media_type x = "AUDIO" <;>
              simp [parse_stream_items, hv, ha, hs, hinit]
      · have hrest := ih ⟨x, hx, hcls⟩
        by_cases hv : is_video_item it
        · simp [parse_stream_items, hv, hinit]
        · by_cases ha : item_media_type it = "AUDIO"
          · simp [parse_stream_items, hv, ha, hinit]
          · by_cases hs : item_media_type it = "SUBTITLES" <;>
              simp [parse_stream_items, hv, ha, hs, hinit, hrest]

/-- Witness for claim C7 at a one-entry meta.json classified as Audio. -/
theorem claim_C7_witness :
    parse_stream_items [⟨some "audio", false⟩] = Except.error "TypeError" := by
  exact (claim_C7_parse_raises_typeerror [⟨some "audio", false⟩]
    ⟨⟨some "audio", false⟩, by simp, Or.inr (Or.inl (by decide))⟩).1

/- ============== DRM resolver key extraction (core/extractors) ============ -/

/-- Kind of a key enumerated from a parsed license by the CDM. -/
inductive CdmKeyKind where
  | content : CdmKeyKind
  | signing : CdmKeyKind
  | other : CdmKeyKind
deriving DecidableEq, Repr

/-- Key enumerated by cdm.get_keys(session_id): KID and key value as hex
strings, plus the key kind the license assigned. -/
structure CdmKey where
  kid : String
  key : String
  kind : CdmKeyKind
deriving DecidableEq, Repr

/-- Test whether a KID hex string is all zeros, as in the source condition
all(c == chr(48) for c in kid). -/
def kid_all_zero (kid : String) : Bool := kid.data.all (fun c => c = '0')

/-- Embedding of the key-emission loop of get_widevine_keys in
core/extractors/ex_widevine.py: every key enumerated from the parsed
license is formatted KID:KEY and appended with deduplication, after
filtering only the all-zero KID; no key-kind filter appears in the loop. -/
def widevine_license_keys_to_pairs (license_keys : List CdmKey) : List String :=
  license_keys.foldl (fun acc k =>
    if kid_all_zero k.kid then acc
    else
      let formatted := k.kid ++ ":" ++ k.key
      if formatted ∈ acc then acc else acc ++ [formatted]) []

/-- Embedding of the key-emission loop of get_playready_keys in
core/extractors/ex_playready.py, identical in structure to the Widevine
loop (the dash-stripping of key_id.hex is absorbed into the kid field). -/
def playready_license_keys_to_pairs (license_keys : List CdmKey) : List String :=
  license_keys.foldl (fun acc k =>
    if kid_all_zero k.kid then acc
    else
      let formatted := k.kid ++ ":" ++ k.key
      if formatted ∈ acc then acc else acc ++ [formatted]) []

/-- Formalisation of the wording of claim C5: exactly the KID:KEY pairs of the
enumerated keys whose kind is Content and whose KID is not all-zero. -/
def spec_content_key_pairs_C5 (license_keys : List CdmKey) : List String :=
  (license_keys.filter
      (fun k => decide (k.kind = CdmKeyKind.content) && ! kid_all_zero k.kid)).map
    (fun k => k.kid ++ ":" ++ k.key)

/-- Claim C5 evaluation at the failing input: a parsed license enumerating one
Signing key with a non-zero KID. Both extractors emit its KID:KEY pair,
while the claim (and the docstrings of both source functions, which promise
CONTENT keys only) say it must not be emitted. -/
theorem claim_C5_code_bug_evaluation :
    widevine_license_keys_to_pairs [⟨"ab", "cd", CdmKeyKind.signing⟩] = ["ab:cd"]
    ∧ playready_license_keys_to_pairs [⟨"ab", "cd", CdmKeyKind.signing⟩] = ["ab:cd"]
    ∧ spec_content_key_pairs_C5 [⟨"ab", "cd", CdmKeyKind.signing⟩] = [] := by
  refine ⟨rfl, rfl, rfl⟩

/- ============== PSSH / PRO validation (core/extractors/ex_mpd.py) ======== -/

/-- DRM systems known to DRMSystem in ex_mpd.py. -/
inductive DrmType where
  | widevine : DrmType
  | playready : DrmType
  | fairplay : DrmType
deriving DecidableEq, Repr

/-- Bytes of the Widevine system UUID edef8ba9-79d6-4ace-a3c8-27dcd51d21ed. -/
def widevine_uuid_bytes : List Nat :=
  [237, 239, 139, 169, 121, 214, 74, 206, 163, 200, 39, 220, 213, 29, 33, 237]

/-- Bytes of the PlayReady system UUID 9a04f079-9840-4286-ab92-e65be0885f95. -/
def playready_uuid_bytes : List Nat :=
  [154, 4, 240, 121, 152, 64, 66, 134, 171, 146, 230, 91, 224, 136, 95, 149]

/-- Bytes of the FairPlay system UUID 94ce86fb-07ff-4f43-adb8-93d2fa968ca2. -/
def fairplay_uuid_bytes : List Nat :=
  [148, 206, 134, 251, 7, 255, 79, 67, 173, 184, 147, 210, 250, 150, 140, 162]

/-- System UUID bytes per DRM type (DRMSystem.get_uuid after hex unpacking). -/
def drm_system_uuid_bytes : DrmType → List Nat
  | DrmType.widevine => widevine_uuid_bytes
  | DrmType.playready => playready_uuid_bytes
  | DrmType.fairplay => fairplay_uuid_bytes

/-- ASCII bytes of the box tag pssh checked at offset 4..8. -/
def psshBoxMagic : List Nat := [112, 115, 115, 104]

/-- Embedding of ContentProtectionHandler._is_valid_pssh. The input is the
result of base64-decoding the blob (none when decoding raised, which the
source catches and maps to False). Python slice data[a:b] is modelled as
drop a then take (b - a), which like the slice yields a short list near the
end of the buffer. -/
def is_valid_pssh (decoded : Option (List Nat)) (drm_type : DrmType) : Bool :=
  match decoded with
  | none => false
  | some data =>
      if data.length < 32 then false
      else if ¬ ((data.drop 4).take 4 = psshBoxMagic) then false
      else decide ((data.drop 12).take 16 = drm_system_uuid_bytes drm_type)

/-- Little-endian byte decoding, as in int.from_bytes(..., "little"). -/
def leBytesToNat : List Nat → Nat
  | [] => 0
  | b :: rest => b + 256 * leBytesToNat rest

/-- Embedding of ContentProtectionHandler._is_valid_pro: the decoded PlayReady
Object must be at least 10 bytes and its total size must equal the
little-endian length stored in its first 4 bytes. -/
def is_valid_pro (decoded : Option (List Nat)) : Bool :=
  match decoded with
  | none => false
  | some data =>
      if data.length < 10 then false
      else decide (data.length = leBytesToNat (data.take 4))

/-- Formalisation of the wording of claim C6 for Widevine blobs: the decoded
bytes carry pssh at 4..8 and the system UUID at 12..28. -/
def spec_valid_pssh_C6 (decoded : Option (List Nat)) (drm_type : DrmType) : Bool :=
  match decoded with
  | none => false
  | some data =>
      decide ((data.drop 4).take 4 = psshBoxMagic)
        && decide ((data.drop 12).take 16 = drm_system_uuid_bytes drm_type)

/-- Formalisation of the wording of claim C6 for PlayReady PRO blobs: the
first 4 bytes, read little-endian, equal the decoded size. -/
def spec_valid_pro_C6 (decoded : Option (List Nat)) : Bool :=
  match decoded with
  | none => false
  | some data => decide (data.length = leBytesToNat (data.take 4))

/-- Minimum-length guard present in the source validators but absent from the
claim. -/
def decoded_min_len (n : Nat) (decoded : Option (List Nat)) : Bool :=
  match decoded with
  | none => false
  | some data => decide (n ≤ data.length)

/-- XML child tags the ContentProtection extraction loop distinguishes. -/
inductive BlobTag where
  | psshTag : BlobTag
  | proTag : BlobTag
deriving DecidableEq, Repr

/-- Candidate blob under a ContentProtection element: its tag, its text and
the result of base64-decoding the text. -/
structure ProtectionBlob where
  tag : BlobTag
  text : String
  decoded : Option (List Nat)
deriving DecidableEq, Repr

/-- Embedding of the child loop of ContentProtectionHandler.extract_pssh for a
matching scheme: a pssh child is kept when _is_valid_pssh accepts it, a pro
child when the DRM type is PlayReady and _is_valid_pro accepts it; accepted
texts are appended with deduplication. -/
def extract_pssh (cands : List ProtectionBlob) (drm_type : DrmType) : List String :=
  cands.foldl (fun acc b =>
    match b.tag with
    | BlobTag.psshTag =>
        if is_valid_pssh b.decoded drm_type then
          if b.text ∈ acc then acc else acc ++ [b.text]
        else acc
    | BlobTag.proTag =>
        if drm_type = DrmType.playready ∧ is_valid_pro b.decoded then
          if b.text ∈ acc then acc else acc ++ [b.text]
        else acc) []

/-- Acceptance condition a blob must meet to survive extraction. -/
def blob_accepted (b : ProtectionBlob) (drm_type : DrmType) : Prop :=
  (b.tag = BlobTag.psshTag ∧ is_valid_pssh b.decoded drm_type = true)
  ∨ (b.tag = BlobTag.proTag ∧ drm_type = DrmType.playready
      ∧ is_valid_pro b.decoded = true)

/-- Claim C6 counterexample: the 4-byte buffer 04 00 00 00 is a PRO blob whose
little-endian length header equals its size, so the claim accepts it, but
the code rejects it through the 10-byte minimum-length guard. -/
theorem claim_C6_counterexample :
    spec_valid_pro_C6 (some [4, 0, 0, 0]) = true
    ∧ is_valid_pro (some [4, 0, 0, 0]) = false := by
  refine ⟨rfl, rfl⟩

/-- Membership in the extraction fold implies prior membership or an accepted
candidate with that text. -/
theorem extract_pssh_foldl_mem (drm_type : DrmType) :
    ∀ (cands : List ProtectionBlob) (acc : List String) (x : String),
      x ∈ cands.foldl (fun (acc : List String) b =>
        match b.tag with
        | BlobTag.psshTag =>
            if is_valid_pssh b.decoded drm_type then
              if b.text ∈ acc then acc else acc ++ [b.text]
            else acc
        | BlobTag.proTag =>
            if drm_type = DrmType.playready ∧ is_valid_pro b.decoded then
              if b.text ∈ acc then acc else acc ++ [b.text]
            else acc) acc →
      x ∈ acc ∨ ∃ b ∈ cands, b.text = x ∧ blob_accepted b drm_type := by
  intro cands
  induction cands with
  | nil => intro acc x hx; exact Or.inl hx
  | cons b rest ih =>
      intro acc x hx
      simp only [List.foldl_cons] at hx
      rcases ih _ x hx with hmem | ⟨c, hc, ht, hacc⟩
      · cases htag : b.tag with
        | psshTag =>
            simp only [htag] at hmem
            by_cases hv : is_valid_pssh b.decoded drm_type
            · simp only [hv, if_true] at hmem
              by_cases hin : b.text ∈ acc
              · simp only [hin, if_true] at hmem
                exact Or.inl hmem
              · simp only [hin, if_false] at hmem
                rcases List.mem_append.mp hmem with h | h
                · exact Or.inl h
                · have hx2 : b.text = x := (List.mem_singleton.mp h).symm
                  exact Or.inr ⟨b, List.mem_cons_self b rest, hx2, Or.inl ⟨htag, hv⟩⟩
            · simp only [hv, if_false] at hmem
              exact Or.inl hmem
        | proTag =>
            simp only [htag] at hmem
            by_cases hv : drm_type = DrmType.playready ∧ is_valid_pro b.decoded
            · simp only [hv, if_true] at hmem
              by_cases hin : b.text ∈ acc
              · simp only [hin, if_true] at hmem
                exact Or.inl hmem
              · simp only [hin, if_false] at hmem
                rcases List.mem_append.mp hmem with h | h
                · exact Or.inl h
                · have hx2 : b.text = x := (List.mem_singleton.mp h).symm
                  exact Or.inr ⟨b, List.mem_cons_self b rest, hx2,
                    Or.inr ⟨htag, hv.1, hv.2⟩⟩
            · simp only [hv, if_false] at hmem
              exact Or.inl hmem
      · exact Or.inr ⟨c, List.mem_cons_of_mem b hc, ht, hacc⟩

/-- Claim C6 (amended): a Widevine PSSH blob is accepted if and only if it
base64-decodes, the decoded bytes are at least 32 long, carry pssh at bytes
4..8 and the system UUID at bytes 12..28; a PlayReady PRO blob is accepted
if and only if it decodes, is at least 10 bytes long and its 4-byte
little-endian length header equals the decoded size; and every blob in the
extracted list passed the acceptance check of its tag. -/
theorem claim_C6_amended (decoded : Option (List Nat)) (drm_type : DrmType) :
    (is_valid_pssh decoded drm_type = true
      ↔ (spec_valid_pssh_C6 decoded drm_type = true ∧ decoded_min_len 32 decoded = true))
    ∧ (is_valid_pro decoded = true
      ↔ (spec_valid_pro_C6 decoded = true ∧ decoded_min_len 10 decoded = true))
    ∧ (∀ (cands : List ProtectionBlob) (x : String),
        x ∈ extract_pssh cands drm_type →
        ∃ b ∈ cands, b.text = x ∧ blob_accepted b drm_type) := by
  refine ⟨?_, ?_, ?_⟩
  · cases decoded with
    | none => simp [is_valid_pssh, spec_valid_pssh_C6, decoded_min_len]
    | some data =>
        by_cases hlen : data.length < 32
        · have h32 : ¬ (32 ≤ data.length) := by omega
          simp [is_valid_pssh, spec_valid_pssh_C6, decoded_min_len, hlen, h32]
        · have h32 : 32 ≤ data.length := by omega
          by_cases hmagic : (data.drop 4).take 4 = psshBoxMagic <;>
            simp [is_valid_pssh, spec_valid_pssh_C6, decoded_min_len, hlen, h32, hmagic]
  · cases decoded with
    | none => simp [is_valid_pro, spec_valid_pro_C6, decoded_min_len]
    | some data =>
        by_cases hlen : data.length < 10
        · have h10 : ¬ (10 ≤ data.length) := by omega
          simp [is_valid_pro, spec_valid_pro_C6, decoded_min_len, hlen, h10]
        · have h10 : 10 ≤ data.length := by omega
          simp [is_valid_pro, spec_valid_pro_C6, decoded_min_len, hlen, h10]
  · intro cands x hx
    have h := extract_pssh_foldl_mem drm_type cands [] x hx
    rcases h with h | h
    · exact absurd h (List.not_mem_nil x)
    · exact h

/-- Witness for claim C6 (amended): a concrete 32-byte Widevine PSSH box that
survives extraction is traced back to an accepted candidate. -/
theorem claim_C6_amended_witness :
    ∃ b ∈ [ProtectionBlob.mk BlobTag.psshTag "WVPSSH"
            (some ([0, 0, 0, 32] ++ psshBoxMagic ++ [0, 0, 0, 0]
              ++ widevine_uuid_bytes ++ [0, 0, 0, 0]))],
      b.text = "WVPSSH" ∧ blob_accepted b DrmType.widevine := by
  exact (claim_C6_amended
      (some ([0, 0, 0, 32] ++ psshBoxMagic ++ [0, 0, 0, 0]
        ++ widevine_uuid_bytes ++ [0, 0, 0, 0])) DrmType.widevine).2.2
    [ProtectionBlob.mk BlobTag.psshTag "WVPSSH"
      (some ([0, 0, 0, 32] ++ psshBoxMagic ++ [0, 0, 0, 0]
        ++ widevine_uuid_bytes ++ [0, 0, 0, 0]))]
    "WVPSSH" (by decide)

/- ============== Segment retry loops (HLS and DASH fetchers) ============== -/

/-- Per-attempt timeout of M3U8_Segments._download_segment_with_retry:
min(SEGMENT_MAX_TIMEOUT, 10 + attempt * 5). -/
def hlsTimeoutRamp (T attempt : Nat) : Nat := min T (10 + attempt * 5)

/-- Backoff of the HLS retry loop: 0.5 + attempt * 0.5 for the first two
attempts, otherwise min(3.0, 1.02 ** attempt). -/
def hlsBackoffVal (attempt : Nat) : Rat :=
  if attempt < 2 then 1/2 + (attempt : Rat) * (1/2)
  else min 3 ((102/100 : Rat) ^ attempt)

/-- Per-attempt timeout of MPD_Segments._download_segment_with_retry:
min(SEGMENT_MAX_TIMEOUT, 10 + attempt * 3). -/
def dashTimeoutRamp (T attempt : Nat) : Nat := min T (10 + attempt * 3)

/-- Backoff of the DASH retry loop after a non-200 non-404 HTTP status:
0.5 + attempt * 0.5 for the first two attempts, otherwise
min(2.0, 1.1 * (2 ** attempt)). -/
def dashBackoffStatus (attempt : Nat) : Rat :=
  if attempt < 2 then 1/2 + (attempt : Rat) * (1/2)
  else min 2 ((11/10 : Rat) * 2 ^ attempt)

/-- Backoff of the DASH retry loop after a transport exception:
min(2.0, 1.1 * (2 ** attempt)) for every attempt. -/
def dashBackoffErr (attempt : Nat) : Rat := min 2 ((11/10 : Rat) * 2 ^ attempt)

/-- Observable outcome of one call of a segment retry loop: the returned
(success, content, retry_count) triple plus the timeout passed to each HTTP
request issued and each backoff slept. -/
structure RetryOutcome where
  success : Bool
  content : Option (List Nat)
  retryCount : Nat
  requestTimeouts : List Nat
  backoffSleeps : List Rat
deriving DecidableEq, Repr

/-- Embedding of the attempt loop of M3U8_Segments._download_segment_with_retry.
resp gives the HTTP outcome of each attempt (none is a transport exception,
otherwise status and body; raise_for_status raises on every non-2xx). decr
is the configured decryption (none when the track is cleartext); a
decryption failure on the last attempt returns with retry_count = attempt,
otherwise it re-raises into the generic handler, which sleeps the backoff
and retries. remaining is the number of loop iterations left. -/
def hls_download_segment_with_retry_go (resp : Nat → Option (Nat × List Nat))
    (decr : Option (List Nat → Option (List Nat))) (T maxRetry : Nat) :
    Nat → Nat → List Nat → List Rat → RetryOutcome
  | 0, _, touts, sleeps => ⟨false, none, maxRetry, touts, sleeps⟩
  | remaining + 1, attempt, touts, sleeps =>
    let touts2 := touts ++ [hlsTimeoutRamp T attempt]
    match resp attempt with
    | some (status, body) =>
        if 200 ≤ status ∧ status < 300 then
          match decr with
          | none => ⟨true, some body, attempt, touts2, sleeps⟩
          | some f =>
              match f body with
              | some dec => ⟨true, some dec, attempt, touts2, sleeps⟩
              | none =>
                  if attempt + 1 = maxRetry then ⟨false, none, attempt, touts2, sleeps⟩
                  else hls_download_segment_with_retry_go resp decr T maxRetry
                    remaining (attempt + 1) touts2 (sleeps ++ [hlsBackoffVal attempt])
        else
          if attempt + 1 = maxRetry then ⟨false, none, maxRetry, touts2, sleeps⟩
          else hls_download_segment_with_retry_go resp decr T maxRetry
            remaining (attempt + 1) touts2 (sleeps ++ [hlsBackoffVal attempt])
    | none =>
        if attempt + 1 = maxRetry then ⟨false, none, maxRetry, touts2, sleeps⟩
        else hls_download_segment_with_retry_go resp decr T maxRetry
          remaining (attempt + 1) touts2 (sleeps ++ [hlsBackoffVal attempt])

/-- Entry point of the HLS retry loop: for attempt in range(max_retry). -/
def hls_download_segment_with_retry (resp : Nat → Option (Nat × List Nat))
    (decr : Option (List Nat → Option (List Nat))) (T maxRetry : Nat) : RetryOutcome :=
  hls_download_segment_with_retry_go resp decr T maxRetry maxRetry 0 [] []

/-- Embedding of the attempt loop of MPD_Segments._download_segment_with_retry:
status 200 returns the body, status 404 returns failure immediately with
retry_count = max_retry and is never retried, any other status sleeps the
status backoff (except after the last attempt) and retries, a transport
exception sleeps the exception backoff (same guard) and retries; an
exhausted loop returns failure with retry_count = max_retry. -/
def dash_download_segment_with_retry_go (resp : Nat → Option (Nat × List Nat))
    (T maxRetry : Nat) : Nat → Nat → List Nat → List Rat → RetryOutcome
  | 0, _, touts, sleeps => ⟨false, none, maxRetry, touts, sleeps⟩
  | remaining + 1, attempt, touts, sleeps =>
    let touts2 := touts ++ [dashTimeoutRamp T attempt]
    match resp attempt with
    | some (status, body) =>
        if status = 200 then ⟨true, some body, attempt, touts2, sleeps⟩
        else if status = 404 then ⟨false, none, maxRetry, touts2, sleeps⟩
        else
          dash_download_segment_with_retry_go resp T maxRetry remaining (attempt + 1)
            touts2
            (if attempt < maxRetry - 1 then sleeps ++ [dashBackoffStatus attempt]
             else sleeps)
    | none =>
        dash_download_segment_with_retry_go resp T maxRetry remaining (attempt + 1)
          touts2
          (if attempt < maxRetry - 1 then sleeps ++ [dashBackoffErr attempt]
           else sleeps)

/-- Entry point of the DASH retry loop: for attempt in range(max_retry). -/
def dash_download_segment_with_retry (resp : Nat → Option (Nat × List Nat))
    (T maxRetry : Nat) : RetryOutcome :=
  dash_download_segment_with_retry_go resp T maxRetry maxRetry 0 [] []

/-- Auxiliary run of the HLS retry loop when every attempt returns HTTP 404:
raise_for_status turns each 404 into the generic exception handler, so the
loop keeps issuing requests until the attempt budget is spent. -/
theorem hls_404_go_spends_all_attempts (resp : Nat → Option (Nat × List Nat))
    (decr : Option (List Nat → Option (List Nat))) (T maxRetry : Nat)
    (h404 : ∀ a, ∃ b, resp a = some (404, b)) :
    ∀ (remaining attempt : Nat) (touts : List Nat) (sleeps : List Rat),
      1 ≤ remaining → remaining + attempt = maxRetry →
      (hls_download_segment_with_retry_go resp decr T maxRetry remaining attempt
          touts sleeps).requestTimeouts.length = touts.length + remaining
      ∧ (hls_download_segment_with_retry_go resp decr T maxRetry remaining attempt
          touts sleeps).success = false := by
  intro remaining
  induction remaining with
  | zero => intro attempt touts sleeps h1 _; omega
  | succ r ih =>
      intro attempt touts sleeps _ h2
      obtain ⟨b, hb⟩ := h404 attempt
      have hstat : ¬ (200 ≤ 404 ∧ 404 < 300) := by omega
      by_cases hcond : attempt + 1 = maxRetry
      · have hr : r = 0 := by omega
        subst hr
        simp [hls_download_segment_with_retry_go, hb, hstat, hcond]
      · have hr : 1 ≤ r := by omega
        have hrec := ih (attempt + 1) (touts ++ [hlsTimeoutRamp T attempt])
          (sleeps ++ [hlsBackoffVal attempt]) hr (by omega)
        have hgo : hls_download_segment_with_retry_go resp decr T maxRetry (r + 1)
              attempt touts sleeps
            = hls_download_segment_with_retry_go resp decr T maxRetry r (attempt + 1)
                (touts ++ [hlsTimeoutRamp T attempt]) (sleeps ++ [hlsBackoffVal attempt]) := by
          simp [hls_download_segment_with_retry_go, hb, hstat, hcond]
        rw [hgo]
        refine ⟨?_, hrec.2⟩
        rw [hrec.1]
        simp only [List.length_append, List.length_singleton]
        omega

/-- Claim C3 counterexample: with every attempt answering HTTP 404 and a retry
budget of 3, the HLS loop issues 3 requests instead of stopping after the
first, while the DASH loop stops after 1; the 404 short-circuit exists only
in the DASH fetcher. -/
theorem claim_C3_counterexample :
    (hls_download_segment_with_retry (fun _ => some (404, [1])) none 100 3).requestTimeouts.length ≠ 1
    ∧ (hls_download_segment_with_retry (fun _ => some (404, [1])) none 100 3).requestTimeouts.length = 3
    ∧ (dash_download_segment_with_retry (fun _ => some (404, [1])) 100 3).requestTimeouts.length = 1 := by
  refine ⟨by decide, by decide, by decide⟩

/-- Claim C3 (amended): only the DASH fetcher treats HTTP 404 as permanent: it
returns failure immediately after one request, with no backoff and with the
failure retry count; the HLS fetcher funnels 404 through its generic
exception handler and keeps retrying until the attempt budget is spent. -/
theorem claim_C3_amended :
    (∀ (resp : Nat → Option (Nat × List Nat)) (T maxRetry : Nat) (body : List Nat),
        1 ≤ maxRetry → resp 0 = some (404, body) →
        dash_download_segment_with_retry resp T maxRetry
          = ⟨false, none, maxRetry, [dashTimeoutRamp T 0], []⟩)
    ∧ (∀ (resp : Nat → Option (Nat × List Nat))
          (decr : Option (List Nat → Option (List Nat))) (T maxRetry : Nat),
        1 ≤ maxRetry → (∀ a, ∃ b, resp a = some (404, b)) →
        (hls_download_segment_with_retry resp decr T maxRetry).requestTimeouts.length
            = maxRetry
        ∧ (hls_download_segment_with_retry resp decr T maxRetry).success = false) := by
  constructor
  · intro resp T maxRetry body h1 hresp
    cases maxRetry with
    | zero => omega
    | succ r =>
        simp [dash_download_segment_with_retry,
          dash_download_segment_with_retry_go, hresp]
  · intro resp decr T maxRetry h1 h404
    have h := hls_404_go_spends_all_attempts resp decr T maxRetry h404
      maxRetry 0 [] [] h1 (by omega)
    exact ⟨by simpa using h.1, h.2⟩

/-- Witness for claim C3 (amended) at the all-404 environment with 3 retries. -/
theorem claim_C3_amended_witness :
    dash_download_segment_with_retry (fun _ => some (404, [1])) 100 3
      = ⟨false, none, 3, [dashTimeoutRamp 100 0], []⟩
    ∧ (hls_download_segment_with_retry (fun _ => some (404, [1])) none 100 3).requestTimeouts.length = 3 := by
  refine ⟨claim_C3_amended.1 (fun _ => some (404, [1])) 100 3 [1] (by omega) rfl, ?_⟩
  exact (claim_C3_amended.2 (fun _ => some (404, [1])) none 100 3 (by omega)
    (fun a => ⟨[1], rfl⟩)).1

/-- Formalisation of the per-attempt timeout of claim C4:
min(T, 10 + attempt * 3). -/
def spec_timeout_C4 (T attempt : Nat) : Nat := min T (10 + attempt * 3)

/-- Formalisation of the backoff of claim C4: 0.5 + 0.5 * attempt for the
first two attempts and min(2.0, 1.1 * 2 ** attempt) afterwards. -/
def spec_backoff_C4 (attempt : Nat) : Rat :=
  if attempt < 2 then 1/2 + (attempt : Rat) * (1/2)
  else min 2 ((11/10 : Rat) * 2 ^ attempt)

/-- Claim C4 counterexample: at attempt 1 with a 20 second configured timeout
the HLS fetcher uses 15 seconds where the claim prescribes 13; at attempt 2
the HLS backoff is min(3, 1.02 squared) which differs from the claimed
min(2, 1.1 * 4) = 2. -/
theorem claim_C4_counterexample :
    hlsTimeoutRamp 20 1 = 15 ∧ spec_timeout_C4 20 1 = 13 ∧ (15 : Nat) ≠ 13
    ∧ hlsBackoffVal 2 ≠ spec_backoff_C4 2 := by
  refine ⟨rfl, rfl, by omega, by norm_num [hlsBackoffVal, spec_backoff_C4, min_def]⟩

/-- Claim C4 (amended): the DASH fetcher uses exactly the claimed timeout ramp
and, on the HTTP-status retry path, exactly the claimed backoff, while its
transport-exception path always sleeps min(2.0, 1.1 * 2 ** attempt); the
HLS fetcher uses min(T, 10 + attempt * 5) and sleeps the claimed values for
the first two attempts but min(3.0, 1.02 ** attempt) afterwards. The runs
with four failing attempts record precisely those per-attempt values. -/
theorem claim_C4_amended (T a : Nat) :
    dashTimeoutRamp T a = spec_timeout_C4 T a
    ∧ dashBackoffStatus a = spec_backoff_C4 a
    ∧ hlsTimeoutRamp T a = min T (10 + a * 5)
    ∧ (a < 2 → hlsBackoffVal a = spec_backoff_C4 a)
    ∧ (2 ≤ a → hlsBackoffVal a = min 3 ((102/100 : Rat) ^ a))
    ∧ dashBackoffErr a = min 2 ((11/10 : Rat) * 2 ^ a)
    ∧ (dash_download_segment_with_retry (fun _ => none) T 4).requestTimeouts
        = [dashTimeoutRamp T 0, dashTimeoutRamp T 1, dashTimeoutRamp T 2,
           dashTimeoutRamp T 3]
    ∧ (dash_download_segment_with_retry (fun _ => none) T 4).backoffSleeps
        = [dashBackoffErr 0, dashBackoffErr 1, dashBackoffErr 2]
    ∧ (hls_download_segment_with_retry (fun _ => none) none T 4).requestTimeouts
        = [hlsTimeoutRamp T 0, hlsTimeoutRamp T 1, hlsTimeoutRamp T 2,
           hlsTimeoutRamp T 3]
    ∧ (hls_download_segment_with_retry (fun _ => none) none T 4).backoffSleeps
        = [hlsBackoffVal 0, hlsBackoffVal 1, hlsBackoffVal 2] := by
  refine ⟨rfl, rfl, rfl, ?_, ?_, rfl, ?_, ?_, ?_, ?_⟩
  · intro h
    simp [hlsBackoffVal, spec_backoff_C4, h]
  · intro h
    have h2 : ¬ a < 2 := by omega
    simp [hlsBackoffVal, h2]
  · rfl
  · rfl
  · rfl
  · rfl

/-- Witness for claim C4 (amended) at attempts 1 and 3 with T = 20. -/
theorem claim_C4_amended_witness :
    hlsBackoffVal 1 = spec_backoff_C4 1
    ∧ hlsBackoffVal 3 = min 3 ((102/100 : Rat) ^ 3) := by
  exact ⟨(claim_C4_amended 20 1).2.2.2.1 (by omega),
         (claim_C4_amended 20 3).2.2.2.2.1 (by omega)⟩

/- ============== Sliding-window ordered-write loop (C1) =================== -/

/-- State of _download_with_sliding_window shared by the HLS and DASH
fetchers: the two loop counters, the indices with an in-flight task, the
chunks written to the single output file in order, and the bookkeeping
sets. -/
structure WindowState where
  nextToDownload : Nat
  nextToWrite : Nat
  activeTasks : List Nat
  output : List (List Nat)
  downloadedSegments : List Nat
  failedSegments : List Nat
  nFailed : Nat
deriving DecidableEq, Repr

/-- State at entry of the sliding-window loop. -/
def initialWindowState : WindowState := ⟨0, 0, [], [], [], [], 0⟩

/-- Embedding of the inner while loop that fills the window: while
next_to_download < total and len(active_tasks) < max_workers, create a task
for next_to_download and increment it. The fuel bounds the iterations; the
loop can run at most total - next_to_download times. -/
def spawnTasks (total maxWorkers : Nat) : Nat → WindowState → WindowState
  | 0, s => s
  | fuel + 1, s =>
    if s.nextToDownload < total ∧ s.activeTasks.length < maxWorkers then
      spawnTasks total maxWorkers fuel
        { s with activeTasks := s.activeTasks ++ [s.nextToDownload],
                 nextToDownload := s.nextToDownload + 1 }
    else s

/-- What awaiting the task of segment i yields for the writer: none when the
task failed (or returned empty content, which the source treats as
failure), otherwise the chunk actually written, i.e. the transform of the
body (the identity for HLS and plain DASH tracks, the moof/mdat extraction
for DASH MP4 segment streams at index > 0). -/
def segmentWritePayload (transform : Nat → List Nat → List Nat)
    (results : Nat → Option (List Nat)) (i : Nat) : Option (List Nat) :=
  match results i with
  | some c => if c = [] then none else some (transform i c)
  | none => none

/-- Embedding of the drain step of the loop body: await the task for
next_to_write, delete it from active_tasks, write its content on success or
record the failure, and advance next_to_write by one in both cases. -/
def drainStep (transform : Nat → List Nat → List Nat)
    (results : Nat → Option (List Nat)) (s : WindowState) : WindowState :=
  let i := s.nextToWrite
  let remainingTasks := s.activeTasks.erase i
  match results i with
  | some c =>
      if c = [] then
        { s with activeTasks := remainingTasks,
                 failedSegments := s.failedSegments ++ [i],
                 nFailed := s.nFailed + 1,
                 nextToWrite := i + 1 }
      else
        { s with activeTasks := remainingTasks,
                 output := s.output ++ [transform i c],
                 downloadedSegments := s.downloadedSegments ++ [i],
                 nextToWrite := i + 1 }
  | none =>
      { s with activeTasks := remainingTasks,
               failedSegments := s.failedSegments ++ [i],
               nFailed := s.nFailed + 1,
               nextToWrite := i + 1 }

/-- Embedding of the outer while loop of _download_with_sliding_window: while
next_to_write < total, fill the window, stop if no task is active, and
otherwise await specifically the task for next_to_write when it is in
flight (the sleeping else branch of the source leaves the state unchanged
for one iteration). The fuel bounds the iterations. -/
def windowLoop (transform : Nat → List Nat → List Nat)
    (results : Nat → Option (List Nat)) (total maxWorkers : Nat) :
    Nat → WindowState → WindowState
  | 0, s => s
  | fuel + 1, s =>
    if s.nextToWrite < total then
      let s1 := spawnTasks total maxWorkers (total - s.nextToDownload) s
      if s1.activeTasks = [] then s1
      else if s1.nextToWrite ∈ s1.activeTasks then
        windowLoop transform results total maxWorkers fuel (drainStep transform results s1)
      else windowLoop transform results total maxWorkers fuel s1
    else s

/-- Concatenation, in ascending index order, of the payloads of the
successful segments among start .. start + count - 1: the output the claim
prescribes. -/
def orderedWrites (transform : Nat → List Nat → List Nat)
    (results : Nat → Option (List Nat)) : Nat → Nat → List (List Nat)
  | _, 0 => []
  | start, count + 1 =>
    (match segmentWritePayload transform results start with
     | some c => [c]
     | none => []) ++ orderedWrites transform results (start + 1) count

/-- Contiguous index range n, n+1, ..., n+k-1. -/
def idxRange : Nat → Nat → List Nat
  | _, 0 => []
  | n, k + 1 => n :: idxRange (n + 1) k

theorem idxRange_append (k : Nat) : ∀ n : Nat, idxRange n k ++ [n + k] = idxRange n (k + 1) := by
  induction k with
  | zero => intro n; simp [idxRange]
  | succ m ih =>
      intro n
      have h := ih (n + 1)
      simp only [idxRange, List.cons_append]
      rw [show n + (m + 1) = (n + 1) + m by omega, h]
      rfl

theorem idxRange_length (k : Nat) : ∀ n : Nat, (idxRange n k).length = k := by
  induction k with
  | zero => intro n; rfl
  | succ m ih => intro n; simp [idxRange, ih]

/-- Spawning the next index extends a contiguous window on the right. -/
theorem window_extend (s : WindowState)
    (h : s.activeTasks = idxRange s.nextToWrite (s.nextToDownload - s.nextToWrite))
    (hle : s.nextToWrite ≤ s.nextToDownload) :
    s.activeTasks ++ [s.nextToDownload]
      = idxRange s.nextToWrite (s.nextToDownload + 1 - s.nextToWrite) := by
  rw [h]
  rw [show s.nextToDownload + 1 - s.nextToWrite
      = (s.nextToDownload - s.nextToWrite) + 1 from by omega]
  rw [← idxRange_append (s.nextToDownload - s.nextToWrite) s.nextToWrite]
  rw [show s.nextToWrite + (s.nextToDownload - s.nextToWrite) = s.nextToDownload
      from by omega]

/-- Filling the window changes only nextToDownload and activeTasks, keeps the
window a contiguous index range starting at nextToWrite, and never spawns
past total. -/
theorem spawnTasks_invariant (total maxWorkers : Nat) :
    ∀ (fuel : Nat) (s : WindowState),
      s.activeTasks = idxRange s.nextToWrite (s.nextToDownload - s.nextToWrite) →
      s.nextToWrite ≤ s.nextToDownload → s.nextToDownload ≤ total →
      (spawnTasks total maxWorkers fuel s).nextToWrite = s.nextToWrite
      ∧ (spawnTasks total maxWorkers fuel s).output = s.output
      ∧ (spawnTasks total maxWorkers fuel s).activeTasks
          = idxRange (spawnTasks total maxWorkers fuel s).nextToWrite
              ((spawnTasks total maxWorkers fuel s).nextToDownload
                - (spawnTasks total maxWorkers fuel s).nextToWrite)
      ∧ (spawnTasks total maxWorkers fuel s).nextToWrite
          ≤ (spawnTasks total maxWorkers fuel s).nextToDownload
      ∧ (spawnTasks total maxWorkers fuel s).nextToDownload ≤ total := by
  intro fuel
  induction fuel with
  | zero =>
      intro s hwin hle htot
      exact ⟨rfl, rfl, hwin, hle, htot⟩
  | succ n ih =>
      intro s hwin hle htot
      by_cases hc : s.nextToDownload < total ∧ s.activeTasks.length < maxWorkers
      · have hunfold : spawnTasks total maxWorkers (n + 1) s
            = spawnTasks total maxWorkers n
                { s with activeTasks := s.activeTasks ++ [s.nextToDownload],
                         nextToDownload := s.nextToDownload + 1 } := by
          simp [spawnTasks, hc]
        rw [hunfold]
        have h2 := ih { s with activeTasks := s.activeTasks ++ [s.nextToDownload], nextToDownload := s.nextToDownload + 1 }
          (window_extend s hwin hle)
          (by show s.nextToWrite ≤ s.nextToDownload + 1; omega)
          (by show s.nextToDownload + 1 ≤ total; omega)
        exact ⟨h2.1, h2.2.1, h2.2.2.1, h2.2.2.2.1, h2.2.2.2.2⟩
      · have hunfold : spawnTasks total maxWorkers (n + 1) s = s := by
          simp [spawnTasks, hc]
        rw [hunfold]
        exact ⟨rfl, rfl, hwin, hle, htot⟩

/-- When its fuel covers the remaining spawn budget, the fill loop only stops
because the window is full or every segment has been spawned. -/
theorem spawnTasks_stop (total maxWorkers : Nat) :
    ∀ (fuel : Nat) (s : WindowState),
      total - s.nextToDownload ≤ fuel →
      ¬ ((spawnTasks total maxWorkers fuel s).nextToDownload < total
          ∧ (spawnTasks total maxWorkers fuel s).activeTasks.length < maxWorkers) := by
  intro fuel
  induction fuel with
  | zero =>
      intro s hfuel
      have : total ≤ s.nextToDownload := by omega
      intro h
      have h0 : (spawnTasks total maxWorkers 0 s) = s := rfl
      rw [h0] at h
      omega
  | succ n ih =>
      intro s hfuel
      by_cases hc : s.nextToDownload < total ∧ s.activeTasks.length < maxWorkers
      · have hunfold : spawnTasks total maxWorkers (n + 1) s
            = spawnTasks total maxWorkers n
                { s with activeTasks := s.activeTasks ++ [s.nextToDownload],
                         nextToDownload := s.nextToDownload + 1 } := by
          simp [spawnTasks, hc]
        rw [hunfold]
        exact ih _ (by simp; omega)
      · have hunfold : spawnTasks total maxWorkers (n + 1) s = s := by
          simp [spawnTasks, hc]
        rw [hunfold]
        exact hc

/-- Field changes of one drain step: next_to_write advances by exactly one,
the drained task leaves the window, and the output grows by the payload of
the drained segment exactly when it succeeded. -/
theorem drainStep_fields (transform : Nat → List Nat → List Nat)
    (results : Nat → Option (List Nat)) (s : WindowState) :
    (drainStep transform results s).nextToWrite = s.nextToWrite + 1
    ∧ (drainStep transform results s).nextToDownload = s.nextToDownload
    ∧ (drainStep transform results s).activeTasks = s.activeTasks.erase s.nextToWrite
    ∧ (drainStep transform results s).output
        = s.output ++ (match segmentWritePayload transform results s.nextToWrite with
                       | some c => [c]
                       | none => []) := by
  unfold drainStep segmentWritePayload
  cases hres : results s.nextToWrite with
  | none => simp [hres]
  | some c =>
      by_cases hc : c = [] <;> simp [hres, hc]

/-- Main run lemma for the sliding-window loop: from any state whose window is
the contiguous range of spawned-but-undrained indices, with enough fuel the
loop drains every index up to total, writing exactly the in-order
concatenation of the successful payloads after the existing output. -/
theorem windowLoop_run (transform : Nat → List Nat → List Nat)
    (results : Nat → Option (List Nat)) (total maxWorkers : Nat) (hW : 1 ≤ maxWorkers) :
    ∀ (fuel : Nat) (s : WindowState),
      s.activeTasks = idxRange s.nextToWrite (s.nextToDownload - s.nextToWrite) →
      s.nextToWrite ≤ s.nextToDownload → s.nextToDownload ≤ total →
      total - s.nextToWrite ≤ fuel →
      (windowLoop transform results total maxWorkers fuel s).output
        = s.output ++ orderedWrites transform results s.nextToWrite (total - s.nextToWrite)
      ∧ (windowLoop transform results total maxWorkers fuel s).nextToWrite = total := by
  intro fuel
  induction fuel with
  | zero =>
      intro s hwin hle htot hfuel
      have hw : s.nextToWrite = total := by omega
      have h0 : windowLoop transform results total maxWorkers 0 s = s := rfl
      rw [h0]
      refine ⟨?_, hw⟩
      rw [hw, Nat.sub_self]
      simp [orderedWrites]
  | succ n ih =>
      intro s hwin hle htot hfuel
      by_cases hlt : s.nextToWrite < total
      · have hsp := spawnTasks_invariant total maxWorkers (total - s.nextToDownload) s
          hwin hle htot
        have hstop := spawnTasks_stop total maxWorkers (total - s.nextToDownload) s
          (le_refl _)
        set s1 := spawnTasks total maxWorkers (total - s.nextToDownload) s with hs1
        obtain ⟨hw1, hout1, hwin1, hle1, htot1⟩ := hsp
        have hk : 1 ≤ s1.nextToDownload - s1.nextToWrite := by
          by_contra hk0
          have hk0' : s1.nextToDownload - s1.nextToWrite = 0 := by omega
          have hempty : s1.activeTasks = [] := by rw [hwin1, hk0']; rfl
          have hlen : s1.activeTasks.length = 0 := by rw [hempty]; rfl
          have hd1 : s1.nextToDownload < total := by omega
          exact hstop ⟨hd1, by rw [hlen]; omega⟩
        obtain ⟨k, hk'⟩ : ∃ k, s1.nextToDownload - s1.nextToWrite = k + 1 :=
          ⟨s1.nextToDownload - s1.nextToWrite - 1, by omega⟩
        have hcons : s1.activeTasks = s1.nextToWrite :: idxRange (s1.nextToWrite + 1) k := by
          rw [hwin1, hk']; rfl
        have hne : s1.activeTasks ≠ [] := by
          rw [hcons]; exact List.cons_ne_nil _ _
        have hmem : s1.nextToWrite ∈ s1.activeTasks := by
          rw [hcons]; exact List.mem_cons_self _ _
        have hunfold : windowLoop transform results total maxWorkers (n + 1) s
            = windowLoop transform results total maxWorkers n
                (drainStep transform results s1) := by
          simp only [windowLoop]
          rw [if_pos hlt, ← hs1, if_neg hne, if_pos hmem]
        obtain ⟨hdw, hdd, hda, hdo⟩ := drainStep_fields transform results s1
        set s2 := drainStep transform results s1 with hs2
        have hwin2 : s2.activeTasks
            = idxRange s2.nextToWrite (s2.nextToDownload - s2.nextToWrite) := by
          rw [hda, hcons, List.erase_cons_head, hdw, hdd]
          congr 1
          omega
        have hle2 : s2.nextToWrite ≤ s2.nextToDownload := by
          rw [hdw, hdd]; omega
        have htot2 : s2.nextToDownload ≤ total := by
          rw [hdd]; exact htot1
        have hfuel2 : total - s2.nextToWrite ≤ n := by
          rw [hdw, hw1]; omega
        have hrec := ih s2 hwin2 hle2 htot2 hfuel2
        rw [hunfold]
        refine ⟨?_, hrec.2⟩
        rw [hrec.1, hdo, hout1, hdw, hw1, List.append_assoc]
        congr 1
        rw [show total - s.nextToWrite = (total - (s.nextToWrite + 1)) + 1 from by omega]
        rfl
      · have hw : s.nextToWrite = total := by omega
        have h0 : windowLoop transform results total maxWorkers (n + 1) s = s := by
          simp only [windowLoop]
          rw [if_neg hlt]
        rw [h0]
        refine ⟨?_, hw⟩
        rw [hw, Nat.sub_self]
        simp [orderedWrites]

/-- Claim C1: for every per-index task outcome (hence for every interleaving
of completions, since the loop always awaits the task of index
next_to_write and never any-of), the sliding-window loop of both fetchers
writes to the single per-track output exactly the payloads of the
successful segments in strictly ascending index order, finishes with
next_to_write = total, and every drain advances next_to_write by exactly
one, also on a failed segment. -/
theorem claim_C1_ordered_writes (transform : Nat → List Nat → List Nat)
    (results : Nat → Option (List Nat)) (total maxWorkers : Nat)
    (hW : 1 ≤ maxWorkers) :
    (windowLoop transform results total maxWorkers total initialWindowState).output
      = orderedWrites transform results 0 total
    ∧ (windowLoop transform results total maxWorkers total initialWindowState).nextToWrite
        = total
    ∧ (∀ s : WindowState,
        (drainStep transform results s).nextToWrite = s.nextToWrite + 1) := by
  have h := windowLoop_run transform results total maxWorkers hW total
    initialWindowState rfl (Nat.le_refl 0) (Nat.zero_le total) (Nat.sub_le total 0)
  refine ⟨?_, ?_, fun s => (drainStep_fields transform results s).1⟩
  · have h1 := h.1
    simpa [initialWindowState] using h1
  · exact h.2

/-- Witness for claim C1: three segments, a window of two workers, segment 1
failing; the loop writes the payloads of segments 0 and 2 in order. -/
theorem claim_C1_ordered_writes_witness :
    1 ≤ 2
    ∧ (windowLoop (fun _ c => c) (fun i => if i = 1 then none else some [i])
        3 2 3 initialWindowState).output
      = orderedWrites (fun _ c => c) (fun i => if i = 1 then none else some [i]) 0 3 := by
  exact ⟨by omega,
    (claim_C1_ordered_writes (fun _ c => c) (fun i => if i = 1 then none else some [i])
      3 2 (by omega)).1⟩
